import Mathlib

/-!
# WireViz connection-set interpreter: a shallow embedding

This file embeds the core of `src/wireviz/wireviz.py` (the `parse` function:
designator resolution, connection-count determination, alternation checking,
component generation, connection-set transposition and connection/mate
recording) as executable Lean definitions, and proves the specification's
claims about it.

Python dictionaries are modelled as insertion-ordered association lists,
Python exceptions as an error type in `Except`, and the mutable closure
state of `parse` (`designators_and_templates`, `autogenerated_designators`,
`expected_type`, the growing `harness`) as explicitly threaded state.

The helper module `wireviz.helper` (`expand`, `is_arrow`,
`get_single_key_and_value`) is not part of the analyzed sources; its two
interesting members are modelled from the specification text and marked as
such in their doc comments.
-/

deriving instance DecidableEq for Except

namespace WireViz

/-- A pin identifier: the pin-range expander produces integers for numeric
tokens and names otherwise; list entries use the integer pin `1`. -/
inductive Pin
  | num (n : Int)
  | name (s : String)
deriving DecidableEq, Repr, Inhabited

/-- The two labels of the alternation check (`alternating_types` in the
source: `"connector"` and `"cable/arrow"`). -/
inductive Label
  | connector
  | cableArrow
deriving DecidableEq, Repr

/-- The errors the build pass can raise.  Each constructor corresponds to one
`raise` in `parse` (the spec's error taxonomy names are noted), plus the two
Python-level errors the source can hit. -/
inductive BuildErr
  /-- `AmbiguousTokenError`: more than one separator in a token (line 165). -/
  | ambiguousToken (inp : String)
  /-- `RedefinitionError`: designator re-declared with another template (line 173). -/
  | redefinition (designator oldTemplate newTemplate : String)
  /-- `InconsistentConnectionCountError` (line 230). -/
  | inconsistentCount
  /-- `AlternationError`: the message names the expected label, the offending
  designator and template, and the actual label (line 197). -/
  | alternation (designator template : String) (expected actual : Label)
  /-- `UnknownReferenceError` (line 296). -/
  | unknownReference (template : String)
  /-- `ArrowAtBoundaryError`, arrow first in a connection (line 326). -/
  | arrowAtStart
  /-- `ArrowAtBoundaryError`, arrow last in a connection (line 328). -/
  | arrowAtEnd
  /-- Python `KeyError` on `designators_and_templates[designator]` (line 276). -/
  | keyError (k : String)
  /-- Python `ValueError` on `alternating_types.index(None)` (line 203). -/
  | valueError
deriving DecidableEq, Repr

/-- One recorded point-to-point connection (`harness.connect(...)`, line 322):
`from`/`to` are absent when the cable is first/last in its connection. -/
structure Connection where
  from_name : Option String
  from_pin : Option Pin
  via_name : String
  via_pin : Pin
  to_name : Option String
  to_pin : Option Pin
deriving DecidableEq, Repr

/-- A recorded mate: pin-level (`harness.add_mate_pin`, line 334) or
component-level (`harness.add_mate_component`, line 337). -/
inductive Mate
  | pin (from_name : String) (from_pin : Pin) (to_name : String) (to_pin : Pin) (arrow : String)
  | component (from_name to_name arrow : String)
deriving DecidableEq, Repr

/-! ## Reduction lemmas for the `Except` monad -/

theorem except_bind_ok {E A B : Type} (a : A) (f : A → Except E B) :
    (Except.ok a >>= f) = f a := rfl

theorem except_bind_error {E A B : Type} (e : E) (f : A → Except E B) :
    (Except.error e >>= f : Except E B) = Except.error e := rfl

/-! ## Python dictionaries as association lists -/

/-- `m[k]` lookup in an insertion-ordered dictionary. -/
def dictGet {α : Type} (m : List (String × α)) (k : String) : Option α :=
  match m.find? (fun p => p.1 == k) with
  | some p => some p.2
  | none => none

/-- `k in m` for a dictionary. -/
def dictContains {α : Type} (m : List (String × α)) (k : String) : Bool :=
  (dictGet m k).isSome

/-- `m[k] = v`: updates the binding in place when the key exists, appends a
new binding otherwise (Python dicts preserve insertion order). -/
def dictSet {α : Type} (m : List (String × α)) (k : String) (v : α) : List (String × α) :=
  if dictContains m k then m.map (fun p => if p.1 == k then (k, v) else p)
  else m ++ [(k, v)]

theorem dictGet_nil {α : Type} (k : String) : dictGet ([] : List (String × α)) k = none := rfl

theorem dictGet_cons {α : Type} (p : String × α) (m : List (String × α)) (k : String) :
    dictGet (p :: m) k = if p.1 = k then some p.2 else dictGet m k := by
  by_cases h : p.1 = k
  · rw [if_pos h]
    unfold dictGet
    rw [List.find?_cons_of_pos _ (by simp [h])]
  · rw [if_neg h]
    show dictGet (p :: m) k = dictGet m k
    unfold dictGet
    rw [List.find?_cons_of_neg _ (by simp [h])]

theorem dictContains_cons {α : Type} (p : String × α) (m : List (String × α)) (k : String) :
    dictContains (p :: m) k = (decide (p.1 = k) || dictContains m k) := by
  unfold dictContains
  rw [dictGet_cons]
  by_cases h : p.1 = k <;> simp [h]

theorem dictGet_map_update_self {α : Type} (m : List (String × α)) (k : String) (v : α)
    (hc : dictContains m k = true) :
    dictGet (m.map (fun p => if p.1 == k then (k, v) else p)) k = some v := by
  induction m with
  | nil => simp [dictContains, dictGet] at hc
  | cons p m ih =>
    rw [dictContains_cons] at hc
    rw [List.map_cons]
    by_cases hp : p.1 = k
    · have he : (if (p.1 == k) = true then (k, v) else p) = (k, v) := by simp [hp]
      rw [he, dictGet_cons, if_pos rfl]
    · have he : (if (p.1 == k) = true then (k, v) else p) = p := by simp [hp]
      rw [he, dictGet_cons, if_neg hp]
      exact ih (by simpa [hp] using hc)

theorem dictGet_map_update_ne {α : Type} (m : List (String × α)) (k k' : String) (v : α)
    (h : k ≠ k') :
    dictGet (m.map (fun p => if p.1 == k then (k, v) else p)) k' = dictGet m k' := by
  induction m with
  | nil => rfl
  | cons p m ih =>
    rw [List.map_cons]
    by_cases hp : p.1 = k
    · have he : (if (p.1 == k) = true then (k, v) else p) = (k, v) := by simp [hp]
      rw [he, dictGet_cons, dictGet_cons, if_neg h, if_neg (fun hq => h (hp.symm.trans hq))]
      exact ih
    · have he : (if (p.1 == k) = true then (k, v) else p) = p := by simp [hp]
      rw [he, dictGet_cons, dictGet_cons]
      by_cases hpk : p.1 = k'
      · simp [hpk]
      · rw [if_neg hpk, if_neg hpk]
        exact ih

theorem dictGet_append_single_self {α : Type} (m : List (String × α)) (k : String) (v : α)
    (hc : dictContains m k = false) : dictGet (m ++ [(k, v)]) k = some v := by
  induction m with
  | nil => simp [dictGet_cons]
  | cons p m ih =>
    rw [dictContains_cons] at hc
    have hp : ¬ p.1 = k := by
      intro h
      simp [h] at hc
    rw [List.cons_append, dictGet_cons, if_neg hp]
    exact ih (by simpa [hp] using hc)

theorem dictGet_append_single_ne {α : Type} (m : List (String × α)) (k k' : String) (v : α)
    (h : k ≠ k') : dictGet (m ++ [(k, v)]) k' = dictGet m k' := by
  induction m with
  | nil => simp [dictGet_cons, dictGet_nil, h]
  | cons p m ih =>
    rw [List.cons_append, dictGet_cons, dictGet_cons]
    by_cases hpk : p.1 = k'
    · simp [hpk]
    · rw [if_neg hpk, if_neg hpk]
      exact ih

theorem dictGet_dictSet_self {α : Type} (m : List (String × α)) (k : String) (v : α) :
    dictGet (dictSet m k v) k = some v := by
  unfold dictSet
  by_cases hc : dictContains m k
  · rw [if_pos hc]
    exact dictGet_map_update_self m k v hc
  · rw [if_neg hc]
    exact dictGet_append_single_self m k v (by simpa using hc)

theorem dictGet_dictSet_ne {α : Type} (m : List (String × α)) (k k' : String) (v : α)
    (h : k ≠ k') : dictGet (dictSet m k v) k' = dictGet m k' := by
  unfold dictSet
  by_cases hc : dictContains m k
  · rw [if_pos hc]
    exact dictGet_map_update_ne m k k' v h
  · rw [if_neg hc]
    exact dictGet_append_single_ne m k k' v h

/-! ## Token utilities -/

/-- `inp.count(separator)`: occurrences of the separator character. -/
def sepCount (s : String) (sep : Char) : Nat :=
  s.toList.count sep

/-- Split a list of characters at the first occurrence of `sep`. -/
def splitOnceChars (sep : Char) : List Char → List Char × List Char
  | [] => ([], [])
  | c :: cs =>
    if c = sep then ([], cs)
    else
      let r := splitOnceChars sep cs
      (c :: r.1, r.2)

/-- `inp.split(separator)` for a token holding exactly one separator: the
part before and the part after it. -/
def splitOnce (s : String) (sep : Char) : String × String :=
  let r := splitOnceChars sep s.toList
  (String.mk r.1, String.mk r.2)

/-- The decimal digit characters of `n`, most significant first
(the rendering of `n` inside an f-string). -/
def natDecimal (n : Nat) : List Char :=
  if n = 0 then ['0'] else ((Nat.digits 10 n).map Nat.digitChar).reverse

/-- `f"__{template}_{n}"`: the auto-generated designator (line 169). -/
def autoName (template : String) (n : Nat) : String :=
  "__" ++ template ++ "_" ++ Nat.repr n

theorem toDigitsCore_eq_natDecimal :
    ∀ (fuel n : Nat), n < fuel → ∀ (acc : List Char),
      Nat.toDigitsCore 10 fuel n acc = natDecimal n ++ acc := by
  intro fuel
  induction fuel with
  | zero => intro n h; exact absurd h (Nat.not_lt_zero n)
  | succ fuel ih =>
    intro n h acc
    unfold Nat.toDigitsCore
    by_cases h0 : n / 10 = 0
    · simp only [h0, if_true]
      by_cases hn : n = 0
      · subst hn
        simp [natDecimal]
        rfl
      · have hlt : n < 10 := by omega
        have hd : Nat.digits 10 n = [n] := by
          rw [Nat.digits_def' (by norm_num : (1 : ℕ) < 10) (Nat.pos_of_ne_zero hn), h0,
            Nat.mod_eq_of_lt hlt]
          simp
        simp [natDecimal, hn, hd, Nat.mod_eq_of_lt hlt]
    · simp only [h0, if_false]
      have hm : n / 10 < fuel := by
        have h1 : n / 10 < n := Nat.div_lt_self (by omega) (by norm_num)
        omega
      rw [ih (n / 10) hm]
      have hn : n ≠ 0 := by
        intro h'
        subst h'
        simp at h0
      have hd : Nat.digits 10 n = n % 10 :: Nat.digits 10 (n / 10) :=
        Nat.digits_def' (by norm_num) (Nat.pos_of_ne_zero hn)
      simp [natDecimal, hn, h0, hd]

theorem natRepr_eq_natDecimal (n : Nat) : Nat.repr n = String.mk (natDecimal n) := by
  unfold Nat.repr Nat.toDigits
  rw [toDigitsCore_eq_natDecimal (n + 1) n (Nat.lt_succ_self n) []]
  simp [List.asString]

/-- Decode a decimal digit string back to the number; a left inverse of
`natDecimal`, used only to prove auto-generated designators distinct. -/
def decodeDecimal (cs : List Char) : Nat :=
  Nat.ofDigits 10 (cs.reverse.map (fun c => c.toNat - '0'.toNat))

theorem decodeDecimal_natDecimal (n : Nat) : decodeDecimal (natDecimal n) = n := by
  unfold natDecimal decodeDecimal
  by_cases h : n = 0
  · simp [h, Nat.ofDigits]
  · rw [if_neg h, List.reverse_reverse, List.map_map]
    have hd : ∀ d ∈ Nat.digits 10 n, (Nat.digitChar d).toNat - '0'.toNat = d := by
      intro d hdm
      have hlt : d < 10 := Nat.digits_lt_base (by norm_num) hdm
      interval_cases d <;> rfl
    calc Nat.ofDigits 10 ((Nat.digits 10 n).map ((fun c => c.toNat - '0'.toNat) ∘ Nat.digitChar))
        = Nat.ofDigits 10 ((Nat.digits 10 n).map id) := by
          congr 1
          exact List.map_congr_left (fun d hdm => hd d hdm)
      _ = Nat.ofDigits 10 (Nat.digits 10 n) := by rw [List.map_id]
      _ = n := Nat.ofDigits_digits 10 n

theorem natDecimal_injective : Function.Injective natDecimal :=
  Function.LeftInverse.injective decodeDecimal_natDecimal

theorem autoName_injective (template : String) : Function.Injective (autoName template) := by
  intro a b hab
  unfold autoName at hab
  rw [natRepr_eq_natDecimal, natRepr_eq_natDecimal] at hab
  have : String.mk (natDecimal a) = String.mk (natDecimal b) := by
    have h1 := congrArg String.data hab
    simp only [String.data_append] at h1
    have h2 := List.append_cancel_left h1
    exact congrArg String.mk h2
  exact natDecimal_injective (by injection this)

/-! ## Designator resolution (`resolve_designator`, lines 162–184) -/

/-- The mutable closure state of `parse` that `resolve_designator` reads and
writes: the designator→template map (line 119) and the per-template counters
for auto-generated designators (line 121). -/
structure ResolverState where
  designators_and_templates : List (String × String)
  autogenerated_designators : List (String × Nat)
deriving DecidableEq, Repr

/-- The empty resolver state at the start of a build pass. -/
def ResolverState.empty : ResolverState := ⟨[], []⟩

/-- `resolve_designator(inp, separator)` (lines 162–184), with the closure
state passed and returned explicitly.  Returns the `(template, designator)`
pair and the updated state. -/
def resolve_designator (st : ResolverState) (inp : String) (sep : Char) :
    Except BuildErr ((String × String) × ResolverState) :=
  if sepCount inp sep > 0 then
    -- generate a new instance of an item
    if sepCount inp sep > 1 then .error (.ambiguousToken inp)
    else
      let template := (splitOnce inp sep).1
      let designator0 := (splitOnce inp sep).2
      let gen :=
        if designator0 = "" then
          let n := (dictGet st.autogenerated_designators template).getD 0 + 1
          (autoName template n,
            { st with autogenerated_designators := dictSet st.autogenerated_designators template n })
        else (designator0, st)
      let designator := gen.1
      let st1 := gen.2
      -- check if redefining existing component to different template
      match dictGet st1.designators_and_templates designator with
      | some t =>
        if t ≠ template then .error (.redefinition designator t template)
        else .ok ((template, designator), st1)
      | none =>
        .ok ((template, designator),
          { st1 with designators_and_templates :=
              dictSet st1.designators_and_templates designator template })
  else
    -- no separator: template = designator = token
    match dictGet st.designators_and_templates inp with
    | some _ => .ok ((inp, inp), st)  -- referencing an existing component
    | none =>
      .ok ((inp, inp),
        { st with designators_and_templates :=
            dictSet st.designators_and_templates inp inp })

/-! ## The helper module (not among the analyzed sources) -/

/-- One comma-separated token of a pin-range expression: an integer `N`, a
two-sided integer range `A-B`, or a name. -/
inductive RangeTok
  | int (n : Int)
  | range (a b : Int)
  | nameTok (s : String)
deriving DecidableEq, Repr

/-- A pin-range expression: a sequence of comma-separated tokens (a bare
scalar is a one-token sequence, a literal list lists its tokens). -/
def PinExpr : Type := List RangeTok
deriving instance DecidableEq, Repr for PinExpr

/-- The inclusive integer sequence from `a` to `b`, ascending when `a ≤ b`
and descending otherwise. -/
def intRange (a b : Int) : List Int :=
  if a ≤ b then (List.range (b - a + 1).toNat).map (fun i => a + i)
  else (List.range (a - b + 1).toNat).map (fun i => a - i)

/-- Modelled from the spec: the Pin-Range Expander `expand` of the missing
`wireviz.helper` module.  "A bare scalar expands to a one-element sequence.
A range token `a-b` expands to the inclusive sequence from `a` to `b`,
ascending or descending depending on operand order.  Comma-separated tokens
concatenate their expansions in written order." -/
def expand (e : PinExpr) : List Pin :=
  e.flatMap fun t =>
    match t with
    | .int n => [.num n]
    | .range a b => (intRange a b).map Pin.num
    | .nameTok s => [.name s]

/-- Python's `c in s` membership test of a character in a string. -/
def charIn (c : Char) (s : String) : Bool :=
  s.toList.contains c

/-- Modelled from the spec: the lexical arrow classifier `is_arrow` of the
missing `wireviz.helper` module.  An arrow token is an optional `<` head, a
nonempty body of `-` only (pin-level) or `=` only (component-level), and an
optional `>` tail. -/
def is_arrow (s : String) : Bool :=
  let cs := s.toList
  let cs := if cs.head? = some '<' then cs.tail else cs
  let cs := if cs.getLast? = some '>' then cs.dropLast else cs
  !cs.isEmpty && (cs.all (· = '-') || cs.all (· = '='))

/-! ## Connection-set rows -/

/-- One element of a connection-set row, as the YAML loader hands it to
`parse`: a scalar token, a list of tokens, a single-key mapping
`{token: pin-range}`, or — after in-place normalization — a list of
singleton `{designator: pin}` mappings. -/
inductive Entry
  | str (s : String)
  | strs (xs : List String)
  | pinmap (k : String) (v : PinExpr)
  | dicts (xs : List (String × Pin))
deriving DecidableEq, Repr

/-- The candidate parallel-connection count one element contributes
(lines 208–215): a list its length, a mapping the expanded length of its
pin-range value, a scalar nothing. -/
def entryCount : Entry → Option Nat
  | .str _ => none
  | .strs xs => some xs.length
  | .pinmap _ v => some (expand v).length
  | .dicts xs => some xs.length

/-- Lines 205–234: the row's connection count.  When no element reveals a
nonzero count (`not any(connectioncount)`) the candidate list becomes `[1]`;
when at least two distinct candidates remain (`len(set(...)) > 1`) the build
fails; otherwise the first candidate is the count. -/
def rowCount (row : List Entry) : Except BuildErr Nat :=
  let cc := row.filterMap entryCount
  let cc := if cc.all (· == 0) then [1] else cc
  if cc.any (fun a => cc.any (fun b => a != b)) then .error .inconsistentCount
  else .ok (cc.headD 1)

/-- Lines 237–239: expand string entries to lists of `connectioncount`
repetitions. -/
def expandStringEntry (count : Nat) : Entry → Entry
  | .str s => .strs (List.replicate count s)
  | e => e

/-- Lines 244–246: resolve every token of a list entry, keeping the
designator, threading resolver state. -/
def resolveItems (sep : Char) : ResolverState → List String →
    Except BuildErr (List String × ResolverState)
  | st, [] => .ok ([], st)
  | st, x :: xs => do
    let (pair, st1) ← resolve_designator st x sep
    let (ys, st2) ← resolveItems sep st1 xs
    .ok (pair.2 :: ys, st2)

/-- Lines 242–253: resolve all designators of one element.  A list element
resolves every item; a mapping element resolves its single key; other
elements are left as they are. -/
def resolveEntry (sep : Char) (st : ResolverState) : Entry →
    Except BuildErr (Entry × ResolverState)
  | .strs xs => do
    let (ys, st1) ← resolveItems sep st xs
    .ok (.strs ys, st1)
  | .pinmap k v => do
    let (pair, st1) ← resolve_designator st k sep
    .ok (.pinmap pair.2 v, st1)
  | e => .ok (e, st)

/-- Lines 242–253 over a whole row, threading resolver state. -/
def resolveEntries (sep : Char) : ResolverState → List Entry →
    Except BuildErr (List Entry × ResolverState)
  | st, [] => .ok ([], st)
  | st, e :: es => do
    let (e1, st1) ← resolveEntry sep st e
    let (es1, st2) ← resolveEntries sep st1 es
    .ok (e1 :: es1, st2)

/-- Lines 256–264: expand each element into its final list of
`{designator: pin}` mappings — pin `1` for each position of a list element,
the expanded pin-range for a mapping element. -/
def expandPinsEntry : Entry → Entry
  | .strs xs => .dicts (xs.map (fun d => (d, Pin.num 1)))
  | .pinmap k v => .dicts ((expand v).map (fun p => (k, p)))
  | e => e

/-- The `{designator: pin}` list of a normalized element (after
`expandPinsEntry` every element of a well-formed row is `.dicts`). -/
def entryDicts : Entry → List (String × Pin)
  | .dicts xs => xs
  | _ => []

/-! ## The harness -/

/-- The harness as the core sees it: connector and cable instances (each the
attribute bundle `T` copied from its template), and the recorded connections
and mates, each in recording order.  Metadata, options and BOM lines are
opaque to the claims and omitted. -/
structure Harness (T : Type) where
  connectors : List (String × T)
  cables : List (String × T)
  connections : List Connection
  mates : List Mate
deriving DecidableEq, Repr

/-- The harness before any connection set is processed. -/
def Harness.empty (T : Type) : Harness T := ⟨[], [], [], []⟩

/-! ## Alternation checking (lines 188–203) -/

/-- `check_type(designator, template, actual_type)` (lines 191–199): adopt
the actual label when no label is expected yet, then fail unless actual and
expected agree.  The expected label (`expected_type`, a nonlocal) is passed
and returned explicitly. -/
def check_type (designator template : String) (actual : Label) (expected : Option Label) :
    Except BuildErr (Option Label) :=
  let e := expected.getD actual  -- each connection set may start with either section
  if actual ≠ e then .error (.alternation designator template e actual)
  else .ok (some e)

/-- `alternate_type()` (lines 201–203): flip between connector and
cable/arrow; `alternating_types.index(None)` raises `ValueError`. -/
def alternate_type : Option Label → Except BuildErr (Option Label)
  | some .connector => .ok (some .cableArrow)
  | some .cableArrow => .ok (some .connector)
  | none => .error .valueError

/-! ## Component generation (lines 272–298) -/

/-- Lines 274–296, one item of one element: look the designator's template
up, then classify in priority order — existing connector instance, connector
template (instantiating), existing cable instance, cable template
(instantiating), lexical arrow — and fail on an unknown reference.  Each
branch runs the alternation check with its label. -/
def genItem {T : Type} (tconn tcab : List (String × T)) (dat : List (String × String))
    (harness : Harness T) (expected : Option Label) (designator : String) :
    Except BuildErr (Harness T × Option Label) :=
  match dictGet dat designator with
  | none => .error (.keyError designator)
  | some template =>
    if dictContains harness.connectors designator then
      -- existing connector instance
      (check_type designator template .connector expected).map (fun e => (harness, e))
    else
      match dictGet tconn template with
      | some attribs =>
        -- generate new connector instance from template
        (check_type designator template .connector expected).map
          (fun e => ({ harness with connectors := dictSet harness.connectors designator attribs }, e))
      | none =>
        if dictContains harness.cables designator then
          -- existing cable instance
          (check_type designator template .cableArrow expected).map (fun e => (harness, e))
        else
          match dictGet tcab template with
          | some attribs =>
            -- generate new cable instance from template
            (check_type designator template .cableArrow expected).map
              (fun e => ({ harness with cables := dictSet harness.cables designator attribs }, e))
          | none =>
            if is_arrow designator then
              -- arrows do not need to be generated here
              (check_type designator template .cableArrow expected).map (fun e => (harness, e))
            else .error (.unknownReference template)

/-- The inner `for item in entry` loop of lines 273–296. -/
def genItems {T : Type} (tconn tcab : List (String × T)) (dat : List (String × String)) :
    Harness T × Option Label → List (String × Pin) →
    Except BuildErr (Harness T × Option Label)
  | st, [] => .ok st
  | st, item :: items => do
    let st1 ← genItem tconn tcab dat st.1 st.2 item.1
    genItems tconn tcab dat st1 items

/-- One element of the row: classify every item, then flip the expected
label (line 298). -/
def genEntry {T : Type} (tconn tcab : List (String × T)) (dat : List (String × String))
    (st : Harness T × Option Label) (entry : List (String × Pin)) :
    Except BuildErr (Harness T × Option Label) := do
  let (h, e) ← genItems tconn tcab dat st entry
  let e1 ← alternate_type e
  .ok (h, e1)

/-- The `for entry in connection_set` loop of lines 273–298. -/
def genRow {T : Type} (tconn tcab : List (String × T)) (dat : List (String × String)) :
    Harness T × Option Label → List (List (String × Pin)) →
    Except BuildErr (Harness T × Option Label)
  | st, [] => .ok st
  | st, entry :: entries => do
    let st1 ← genEntry tconn tcab dat st entry
    genRow tconn tcab dat st1 entries

/-- Lines 266–298: populate the harness from one row.  `expected_type` is
reset to unset (line 268) at the beginning of every connection set. -/
def populateRow {T : Type} (tconn tcab : List (String × T)) (dat : List (String × String))
    (harness : Harness T) (row : List (List (String × Pin))) :
    Except BuildErr (Harness T × Option Label) :=
  genRow tconn tcab dat (harness, none) row

/-! ## Transposition and connection (lines 300–337) -/

/-- The length Python's `zip(*xss)` truncates to: the least length of the
lists (`0` when there are none). -/
def minLen {α : Type} : List (List α) → Nat
  | [] => 0
  | x :: xs => (xs.map List.length).foldl Nat.min x.length

/-- Line 303, `list(map(list, zip(*connection_set)))`: the k-th transposed
entry collects the k-th sub-item of every element, for k below every
element's length. -/
def transposeZip {α : Type} [Inhabited α] (xss : List (List α)) : List (List α) :=
  (List.range (minLen xss)).map (fun k => xss.map (fun xs => xs.getD k default))

/-- Lines 307–337, one item of one transposed entry, with the walk position
given by the previous item (`none` exactly at `index_item == 0`) and the
next item (`none` exactly at `index_item == len(entry) - 1`).  Returns the
connections and mates this item records. -/
def connectItem (cables : List String) (index_entry : Nat)
    (prev : Option (String × Pin)) (item : String × Pin) (next : Option (String × Pin)) :
    Except BuildErr (List Connection × List Mate) :=
  let designator := item.1
  if cables.contains designator then
    .ok ([{ from_name := prev.map Prod.fst, from_pin := prev.map Prod.snd,
            via_name := designator, via_pin := item.2,
            to_name := next.map Prod.fst, to_pin := next.map Prod.snd }], [])
  else if is_arrow designator then
    match prev with
    | none => .error .arrowAtStart  -- an arrow cannot be at the start
    | some (from_name, from_pin) =>
      match next with
      | none => .error .arrowAtEnd  -- an arrow cannot be at the end
      | some (to_name, to_pin) =>
        if charIn '-' designator then
          -- mate pin by pin
          .ok ([], [.pin from_name from_pin to_name to_pin designator])
        else if charIn '=' designator ∧ index_entry = 0 then
          -- mate two connectors as a whole
          .ok ([], [.component from_name to_name designator])
        else .ok ([], [])
  else .ok ([], [])

/-- The `for index_item, item in enumerate(entry)` loop of lines 307–337,
walking one transposed entry left to right. -/
def connectEntry (cables : List String) (index_entry : Nat) :
    Option (String × Pin) → List (String × Pin) →
    Except BuildErr (List Connection × List Mate)
  | _, [] => .ok ([], [])
  | prev, item :: rest => do
    let here ← connectItem cables index_entry prev item rest.head?
    let later ← connectEntry cables index_entry (some item) rest
    .ok (here.1 ++ later.1, here.2 ++ later.2)

/-- The `for index_entry, entry in enumerate(connection_set)` loop of
lines 306–337 over the transposed row. -/
def connectSetGo (cables : List String) :
    Nat → List (List (String × Pin)) → Except BuildErr (List Connection × List Mate)
  | _, [] => .ok ([], [])
  | index_entry, entry :: rest => do
    let here ← connectEntry cables index_entry none entry
    let later ← connectSetGo cables (index_entry + 1) rest
    .ok (here.1 ++ later.1, here.2 ++ later.2)

/-! ## The per-row pipeline and the document (lines 106–348) -/

/-- Lines 205–337 for one connection set: count, in-place string expansion,
designator resolution, pin expansion, harness population, transposition and
connection.  Returns the updated resolver state and harness, and the row as
the source leaves it stored in `yaml_data["connections"]` (the source
rewrites `connection_set[index]` in place, so the document keeps the
pin-expanded form). -/
def processConnectionSet {T : Type} (tconn tcab : List (String × T)) (sep : Char)
    (st : ResolverState × Harness T) (row : List Entry) :
    Except BuildErr ((ResolverState × Harness T) × List Entry) := do
  let count ← rowCount row
  let row1 := row.map (expandStringEntry count)
  let (row2, rst) ← resolveEntries sep st.1 row1
  let row3 := row2.map expandPinsEntry
  let strands := row3.map entryDicts
  let (harness1, _) ← populateRow tconn tcab rst.designators_and_templates st.2 strands
  let pair ← connectSetGo (harness1.cables.map Prod.fst) 0 (transposeZip strands)
  .ok ((rst, { harness1 with
                connections := harness1.connections ++ pair.1,
                mates := harness1.mates ++ pair.2 }), row3)

/-- The `for connection_set in connection_sets` loop (line 205), returning
the rows as the document holds them afterwards. -/
def processConnections {T : Type} (tconn tcab : List (String × T)) (sep : Char) :
    ResolverState × Harness T → List (List Entry) →
    Except BuildErr ((ResolverState × Harness T) × List (List Entry))
  | st, [] => .ok (st, [])
  | st, row :: rows => do
    let (st1, row1) ← processConnectionSet tconn tcab sep st row
    let (st2, rows1) ← processConnections tconn tcab sep st1 rows
    .ok (st2, row1 :: rows1)

/-- The document tree handed to `parse`: the template sections and the
connection-set rows (the only parts the core build reads). -/
structure Document (T : Type) where
  connectors : List (String × T)
  cables : List (String × T)
  connections : List (List Entry)
deriving DecidableEq, Repr

/-- The core build of `parse` (lines 106–348): read the template registries
from the document, process the connection sets in order from an empty
resolver state and harness, and — since the source rewrites
`connection_set[index]` in place — return the document with its connection
rows replaced by their normalized forms, together with the harness and the
final resolver state. -/
def parseCore {T : Type} (sep : Char) (doc : Document T) :
    Except BuildErr (Document T × Harness T × ResolverState) := do
  let (st, rows) ← processConnections doc.connectors doc.cables sep
    (ResolverState.empty, Harness.empty T) doc.connections
  .ok ({ doc with connections := rows }, st.2, st.1)

/-! ## Lemmas on the connection count -/

theorem rowCount_all_zero (row : List Entry)
    (h : ∀ x ∈ row.filterMap entryCount, x = 0) : rowCount row = .ok 1 := by
  unfold rowCount
  have hall : (row.filterMap entryCount).all (· == 0) = true := by
    rw [List.all_eq_true]
    intro x hx
    simpa using h x hx
  simp [hall]

theorem rowCount_disagree (row : List Entry) (a b : Nat)
    (ha : a ∈ row.filterMap entryCount) (hb : b ∈ row.filterMap entryCount)
    (hab : a ≠ b) : rowCount row = .error .inconsistentCount := by
  unfold rowCount
  have hall : (row.filterMap entryCount).all (· == 0) = false := by
    rw [List.all_eq_false]
    rcases Nat.eq_zero_or_pos a with rfl | hpa
    · exact ⟨b, hb, by simpa using (Ne.symm hab)⟩
    · exact ⟨a, ha, by simpa using (Nat.pos_iff_ne_zero.mp hpa)⟩
  have hany : (row.filterMap entryCount).any
      (fun x => (row.filterMap entryCount).any (fun y => x != y)) = true := by
    rw [List.any_eq_true]
    exact ⟨a, ha, List.any_eq_true.mpr ⟨b, hb, by simpa using hab⟩⟩
  simp only [hall, Bool.false_eq_true, if_false]
  rw [hany]
  rfl

theorem rowCount_all_eq (row : List Entry) (c : Nat) (hc : c ≠ 0)
    (hne : row.filterMap entryCount ≠ [])
    (h : ∀ x ∈ row.filterMap entryCount, x = c) : rowCount row = .ok c := by
  unfold rowCount
  obtain ⟨x0, hx0⟩ := List.exists_mem_of_ne_nil _ hne
  have hall : (row.filterMap entryCount).all (· == 0) = false := by
    rw [List.all_eq_false]
    exact ⟨x0, hx0, by simpa [h x0 hx0] using hc⟩
  have hany : (row.filterMap entryCount).any
      (fun x => (row.filterMap entryCount).any (fun y => x != y)) = false := by
    rw [List.any_eq_false]
    intro x hx
    simp only [Bool.not_eq_true, List.any_eq_false]
    intro y hy
    simp [h x hx, h y hy]
  have hhead : (row.filterMap entryCount).headD 1 = c := by
    cases hcc : row.filterMap entryCount with
    | nil => exact absurd hcc hne
    | cons z zs => simpa using h z (hcc ▸ List.mem_cons_self z zs)
  simp only [hall, Bool.false_eq_true, if_false]
  rw [hany]
  simpa using hhead

/-- C6: the connection count of a raw row comes from the candidate counts of
list elements (their length) and mapping elements (the expanded length of
their pin-range value) while scalar elements contribute nothing; with no
contributing element the count defaults to 1, and disagreeing candidates
fail with `InconsistentConnectionCountError`. -/
theorem claim_C6_connection_count (row : List Entry) (s k : String) (xs : List String)
    (v : PinExpr) (a b c : Nat) :
    entryCount (.str s) = none ∧
    entryCount (.strs xs) = some xs.length ∧
    entryCount (.pinmap k v) = some (expand v).length ∧
    (row.filterMap entryCount = [] → rowCount row = .ok 1) ∧
    (a ∈ row.filterMap entryCount → b ∈ row.filterMap entryCount → a ≠ b →
      rowCount row = .error .inconsistentCount) ∧
    (c ≠ 0 → row.filterMap entryCount ≠ [] → (∀ x ∈ row.filterMap entryCount, x = c) →
      rowCount row = .ok c) := by
  refine ⟨rfl, rfl, rfl, ?_, ?_, ?_⟩
  · intro h
    exact rowCount_all_zero row (by simp [h])
  · exact fun ha hb hab => rowCount_disagree row a b ha hb hab
  · exact fun hc hne h => rowCount_all_eq row c hc hne h

/-- Witness for C6: candidate counts `{3, 3, 3}` succeed with count 3 and
candidates `{3, 2}` fail. -/
theorem claim_C6_connection_count_witness :
    rowCount [Entry.strs ["a", "b", "c"], Entry.pinmap "X" [RangeTok.range 1 3],
      Entry.strs ["d", "e", "f"]] = .ok 3 ∧
    rowCount [Entry.strs ["a", "b", "c"], Entry.strs ["d", "e"]] =
      .error .inconsistentCount := by
  constructor
  · exact (claim_C6_connection_count
      [Entry.strs ["a", "b", "c"], Entry.pinmap "X" [RangeTok.range 1 3],
        Entry.strs ["d", "e", "f"]] "" "" [] [] 0 0 3).2.2.2.2.2
      (by decide) (by decide) (by decide)
  · exact (claim_C6_connection_count
      [Entry.strs ["a", "b", "c"], Entry.strs ["d", "e"]] "" "" [] [] 3 2 0).2.2.2.2.1
      (by decide) (by decide) (by decide)

/-- C9: an empty list element, or a mapping whose pin range expands to
nothing, contributes candidate count 0; a row whose candidates are all 0 is
treated as if no element contributed a count (count 1), while a row mixing a
zero candidate with a nonzero one fails with the inconsistent-count error. -/
theorem claim_C9_zero_candidates (k : String) (v : PinExpr) (row : List Entry) (n : Nat) :
    entryCount (.strs []) = some 0 ∧
    (expand v = [] → entryCount (.pinmap k v) = some 0) ∧
    (row.filterMap entryCount ≠ [] → (∀ x ∈ row.filterMap entryCount, x = 0) →
      rowCount row = .ok 1) ∧
    ((0 : Nat) ∈ row.filterMap entryCount → n ∈ row.filterMap entryCount → n ≠ 0 →
      rowCount row = .error .inconsistentCount) := by
  refine ⟨rfl, ?_, ?_, ?_⟩
  · intro h
    simp [entryCount, h]
  · intro _ h
    exact rowCount_all_zero row h
  · intro h0 hn hne
    exact rowCount_disagree row 0 n h0 hn (fun h => hne h.symm)

/-- Witness for C9: a row of two zero-candidate elements gets count 1; a row
mixing candidates 0 and 1 fails. -/
theorem claim_C9_zero_candidates_witness :
    rowCount [Entry.strs [], Entry.pinmap "X" []] = .ok 1 ∧
    rowCount [Entry.strs [], Entry.strs ["a"]] = .error .inconsistentCount := by
  constructor
  · exact (claim_C9_zero_candidates "X" [] [Entry.strs [], Entry.pinmap "X" []] 0).2.2.1
      (by decide) (by decide)
  · exact (claim_C9_zero_candidates "X" [] [Entry.strs [], Entry.strs ["a"]] 1).2.2.2
      (by decide) (by decide) (by decide)

/-- C4: the alternation check is a two-state machine over
{connector, cable/arrow}: an unset expected label adopts the entry's actual
label, agreement passes, disagreement fails with an `AlternationError`
naming the designator, template and expected label, `alternate_type` flips a
set label to the other one, and harness population starts every row with
the expected label unset. -/
theorem claim_C4_alternation_machine {T : Type} (tconn tcab : List (String × T))
    (dat : List (String × String)) (harness : Harness T)
    (row : List (List (String × Pin))) (d t : String) (a e : Label) :
    check_type d t a none = .ok (some a) ∧
    check_type d t a (some a) = .ok (some a) ∧
    (a ≠ e → check_type d t a (some e) = .error (.alternation d t e a)) ∧
    alternate_type (some .connector) = .ok (some .cableArrow) ∧
    alternate_type (some .cableArrow) = .ok (some .connector) ∧
    populateRow tconn tcab dat harness row = genRow tconn tcab dat (harness, none) row := by
  refine ⟨?_, ?_, ?_, rfl, rfl, rfl⟩
  · simp [check_type]
  · simp [check_type]
  · intro h
    simp [check_type, h]

/-- Witness for C4: a cable/arrow entry where a connector is expected fails
with the alternation error naming it. -/
theorem claim_C4_alternation_machine_witness :
    check_type "W1" "W" Label.cableArrow (some Label.connector) =
      .error (.alternation "W1" "W" Label.connector Label.cableArrow) :=
  (claim_C4_alternation_machine ([] : List (String × Unit)) [] [] (Harness.empty Unit)
    [] "W1" "W" Label.cableArrow Label.connector).2.2.1 (by decide)

/-- C5: the label of an item is decided in the source's priority order —
existing connector instance, declared connector template (instantiating a
new designator), existing cable instance, declared cable template
(instantiating), lexical arrow (no instantiation) — and otherwise the build
fails with `UnknownReferenceError`. -/
theorem claim_C5_label_priority {T : Type} (tconn tcab : List (String × T))
    (dat : List (String × String)) (h : Harness T) (e : Option Label) (d t : String)
    (hdat : dictGet dat d = some t) :
    (dictContains h.connectors d = true →
      genItem tconn tcab dat h e d =
        (check_type d t .connector e).map (fun e1 => (h, e1))) ∧
    (dictContains h.connectors d = false → ∀ v, dictGet tconn t = some v →
      genItem tconn tcab dat h e d =
        (check_type d t .connector e).map
          (fun e1 => ({ h with connectors := dictSet h.connectors d v }, e1))) ∧
    (dictContains h.connectors d = false → dictGet tconn t = none →
      dictContains h.cables d = true →
      genItem tconn tcab dat h e d =
        (check_type d t .cableArrow e).map (fun e1 => (h, e1))) ∧
    (dictContains h.connectors d = false → dictGet tconn t = none →
      dictContains h.cables d = false → ∀ v, dictGet tcab t = some v →
      genItem tconn tcab dat h e d =
        (check_type d t .cableArrow e).map
          (fun e1 => ({ h with cables := dictSet h.cables d v }, e1))) ∧
    (dictContains h.connectors d = false → dictGet tconn t = none →
      dictContains h.cables d = false → dictGet tcab t = none →
      is_arrow d = true →
      genItem tconn tcab dat h e d =
        (check_type d t .cableArrow e).map (fun e1 => (h, e1))) ∧
    (dictContains h.connectors d = false → dictGet tconn t = none →
      dictContains h.cables d = false → dictGet tcab t = none →
      is_arrow d = false →
      genItem tconn tcab dat h e d = .error (.unknownReference t)) := by
  refine ⟨?_, ?_, ?_, ?_, ?_, ?_⟩
  · intro h1
    simp [genItem, hdat, h1]
  · intro h1 v h2
    simp [genItem, hdat, h1, h2]
  · intro h1 h2 h3
    simp [genItem, hdat, h1, h2, h3]
  · intro h1 h2 h3 v h4
    simp [genItem, hdat, h1, h2, h3, h4]
  · intro h1 h2 h3 h4 h5
    simp [genItem, hdat, h1, h2, h3, h4, h5]
  · intro h1 h2 h3 h4 h5
    simp [genItem, hdat, h1, h2, h3, h4, h5]

/-- Witness for C5: a fresh designator whose template is a declared
connector template is labeled connector and instantiated. -/
theorem claim_C5_label_priority_witness :
    genItem [("X", ())] ([] : List (String × Unit)) [("X1", "X")]
      (Harness.empty Unit) none "X1" =
      .ok (⟨[("X1", ())], [], [], []⟩, some Label.connector) := by
  rw [(claim_C5_label_priority [("X", ())] [] [("X1", "X")] (Harness.empty Unit)
        none "X1" "X" (by decide)).2.1 (by decide) () (by decide)]
  rfl

/-! ## The expected label is stable across the items of one element -/

theorem check_type_some_ok (d t : String) (a L : Label) (o : Option Label)
    (h : check_type d t a (some L) = .ok o) : o = some L := by
  unfold check_type at h
  by_cases hL : a = L
  · simp [hL] at h
    exact h.symm
  · simp [hL] at h

theorem genItem_expected {T : Type} (tconn tcab : List (String × T))
    (dat : List (String × String)) (h : Harness T) (L : Label) (d : String)
    (h1 : Harness T) (e1 : Option Label)
    (hok : genItem tconn tcab dat h (some L) d = .ok (h1, e1)) : e1 = some L := by
  have key : ∀ (t : String) (a : Label) (f : Option Label → Harness T × Option Label),
      (∀ o, (f o).2 = o) →
      (check_type d t a (some L)).map f = .ok (h1, e1) → e1 = some L := by
    intro t a f hf hmok
    cases hct : check_type d t a (some L) with
    | error err => rw [hct] at hmok; simp [Except.map] at hmok
    | ok o =>
      rw [hct] at hmok
      simp [Except.map] at hmok
      have he1 : (f o).2 = e1 := by rw [hmok]
      rw [← he1, hf o]
      exact check_type_some_ok d t a L o hct
  unfold genItem at hok
  split at hok
  · simp at hok
  · split at hok
    · exact key _ _ _ (fun o => rfl) hok
    · split at hok
      · exact key _ _ _ (fun o => rfl) hok
      · split at hok
        · exact key _ _ _ (fun o => rfl) hok
        · split at hok
          · exact key _ _ _ (fun o => rfl) hok
          · split at hok
            · exact key _ _ _ (fun o => rfl) hok
            · simp at hok

theorem genItems_expected {T : Type} (tconn tcab : List (String × T))
    (dat : List (String × String)) (items : List (String × Pin)) :
    ∀ (h : Harness T) (L : Label) (h1 : Harness T) (e1 : Option Label),
    genItems tconn tcab dat (h, some L) items = .ok (h1, e1) → e1 = some L := by
  induction items with
  | nil =>
    intro h L h1 e1 hok
    unfold genItems at hok
    simp at hok
    exact hok.2.symm
  | cons item items ih =>
    intro h L h1 e1 hok
    unfold genItems at hok
    cases hg : genItem tconn tcab dat h (some L) item.1 with
    | error err =>
      rw [hg, except_bind_error] at hok
      exact Except.noConfusion hok
    | ok st1 =>
      rw [hg, except_bind_ok] at hok
      obtain ⟨ha, hb⟩ := st1
      have hbs : hb = some L := genItem_expected tconn tcab dat h L item.1 ha hb hg
      rw [hbs] at hok
      exact ih ha L h1 e1 hok

/-- C10: within one row element every parallel item must carry the same
label: the type check runs once per item while the expected label flips only
once per element (a successful item, or item loop, leaves a set expected
label unchanged), so an element mixing a connector designator and a cable
designator across its parallel positions fails with the alternation error
even when the elements' leading labels otherwise alternate. -/
theorem claim_C10_element_mixed_labels {T : Type} (tconn tcab : List (String × T))
    (dat : List (String × String)) (h h1 : Harness T) (L : Label) (d : String)
    (e1 : Option Label) (items : List (String × Pin)) :
    (genItem tconn tcab dat h (some L) d = .ok (h1, e1) → e1 = some L) ∧
    (genItems tconn tcab dat (h, some L) items = .ok (h1, e1) → e1 = some L) ∧
    genRow [("A", ())] [("W", ())] [("A1", "A"), ("W1", "W")]
      (Harness.empty Unit, none)
      [[("A1", Pin.num 1), ("W1", Pin.num 1)], [("W1", Pin.num 1), ("W1", Pin.num 1)]] =
      .error (.alternation "W1" "W" .connector .cableArrow) :=
  ⟨fun hok => genItem_expected tconn tcab dat h L d h1 e1 hok,
   fun hok => genItems_expected tconn tcab dat items h L h1 e1 hok,
   by decide⟩

/-- Witness for C10: a successful one-item element leaves the expected label
`connector` unchanged. -/
theorem claim_C10_element_mixed_labels_witness :
    genItems [("A", ())] ([] : List (String × Unit)) [("A1", "A")]
      (Harness.empty Unit, some Label.connector) [("A1", Pin.num 1)] =
      .ok (⟨[("A1", ())], [], [], []⟩, some Label.connector) ∧
    (some Label.connector : Option Label) = some Label.connector := by
  constructor
  · decide
  · exact (claim_C10_element_mixed_labels [("A", ())] [] [("A1", "A")]
      (Harness.empty Unit) ⟨[("A1", ())], [], [], []⟩ Label.connector "A1"
      (some Label.connector) [("A1", Pin.num 1)]).2.1 (by decide)

/-- Counterexample to C3 as stated: token `X:T` records designator `T`
under template `X`; the bare token `T` (for which template = designator =
`T`) then re-references a designator whose recorded template `X` differs
from the token's template `T`, yet resolution succeeds with no
`RedefinitionError` (the bare branch never compares templates). -/
theorem claim_C3_counterexample :
    resolve_designator ResolverState.empty "X:T" ':' =
      .ok (("X", "T"), ⟨[("T", "X")], []⟩) ∧
    resolve_designator ⟨[("T", "X")], []⟩ "T" ':' =
      .ok (("T", "T"), ⟨[("T", "X")], []⟩) ∧
    dictGet ([("T", "X")] : List (String × String)) "T" = some "X" ∧
    "X" ≠ "T" :=
  ⟨by decide, by decide, by decide, by decide⟩

/-- C3 amended: a separated token with a nonempty written designator part
that is already recorded fails with `RedefinitionError` iff the recorded
template differs from the token's template, and otherwise resolves to a
reference with no state change; a bare token whose name is already recorded
always resolves to a reference with no state change and never errors,
whatever template is recorded for it. -/
theorem claim_C3_redefinition (st : ResolverState) (inp : String) (sep : Char)
    (t d t0 : String) :
    (sepCount inp sep = 1 → splitOnce inp sep = (t, d) → d ≠ "" →
      dictGet st.designators_and_templates d = some t0 →
      (t0 ≠ t → resolve_designator st inp sep = .error (.redefinition d t0 t)) ∧
      (t0 = t → resolve_designator st inp sep = .ok ((t, d), st))) ∧
    (sepCount inp sep = 0 →
      dictGet st.designators_and_templates inp = some t0 →
      resolve_designator st inp sep = .ok ((inp, inp), st)) := by
  constructor
  · intro h1 h2 h3 h4
    have hgt : sepCount inp sep > 0 := by omega
    have hngt : ¬ sepCount inp sep > 1 := by omega
    constructor
    · intro hne
      unfold resolve_designator
      simp [hgt, hngt, h2, h3, h4, hne]
    · intro heq
      unfold resolve_designator
      simp [hgt, hngt, h2, h3, h4, heq]
  · intro h1 h4
    have hngt : ¬ sepCount inp sep > 0 := by omega
    unfold resolve_designator
    simp [hngt, h4]

/-- Witness for C3 (amended): a recorded designator `b` of template `B`
errors when re-declared as `C:b`, passes when re-declared as `B:b`, and
passes as the bare reference `b`, each with no state change. -/
theorem claim_C3_redefinition_witness :
    resolve_designator ⟨[("b", "B")], []⟩ "C:b" ':' = .error (.redefinition "b" "B" "C") ∧
    resolve_designator ⟨[("b", "B")], []⟩ "B:b" ':' = .ok (("B", "b"), ⟨[("b", "B")], []⟩) ∧
    resolve_designator ⟨[("b", "B")], []⟩ "b" ':' = .ok (("b", "b"), ⟨[("b", "B")], []⟩) :=
  ⟨((claim_C3_redefinition ⟨[("b", "B")], []⟩ "C:b" ':' "C" "b" "B").1
      (by decide) (by decide) (by decide) (by decide)).1 (by decide),
   ((claim_C3_redefinition ⟨[("b", "B")], []⟩ "B:b" ':' "B" "b" "B").1
      (by decide) (by decide) (by decide) (by decide)).2 rfl,
   (claim_C3_redefinition ⟨[("b", "B")], []⟩ "b" ':' "" "" "B").2
      (by decide) (by decide)⟩

/-! ## Auto-generated designators (claim C7) -/

/-- A token of the form `TEMPLATE<sep>` for template `t`: exactly one
separator and an empty written designator part. -/
def anonTok (sep : Char) (t tok : String) : Bool :=
  decide (sepCount tok sep = 1 ∧ (splitOnce tok sep).1 = t ∧ (splitOnce tok sep).2 = "")

/-- How many anonymous-instance tokens of template `t` a token list holds. -/
def countAnon (sep : Char) (t : String) (tokens : List String) : Nat :=
  (tokens.filter (anonTok sep t)).length

/-- The designators resolved for the anonymous-instance tokens of template
`t`, in token order. -/
def selectAnon (sep : Char) (t : String) (tokens designators : List String) : List String :=
  (tokens.zip designators).filterMap (fun p => if anonTok sep t p.1 then some p.2 else none)

theorem resolve_anon_step (st : ResolverState) (tok : String) (sep : Char) (t : String)
    (pair : String × String) (st1 : ResolverState)
    (ha : anonTok sep t tok = true)
    (hok : resolve_designator st tok sep = .ok (pair, st1)) :
    pair.2 = autoName t ((dictGet st.autogenerated_designators t).getD 0 + 1) ∧
    dictGet st1.autogenerated_designators t =
      some ((dictGet st.autogenerated_designators t).getD 0 + 1) := by
  unfold anonTok at ha
  rw [decide_eq_true_eq] at ha
  obtain ⟨h1, h2, h3⟩ := ha
  have hgt : sepCount tok sep > 0 := by omega
  have hngt : ¬ sepCount tok sep > 1 := by omega
  unfold resolve_designator at hok
  rw [if_pos hgt, if_neg hngt] at hok
  simp only [h2, h3, eq_self_iff_true, if_true] at hok
  split at hok
  · -- the generated designator is already recorded
    split at hok
    · exact Except.noConfusion hok
    · injection hok with h'
      obtain ⟨hp, hs⟩ := Prod.mk.inj h'
      refine ⟨by rw [← hp], ?_⟩
      rw [← hs]
      exact dictGet_dictSet_self _ _ _
  · -- the generated designator is new
    injection hok with h'
    obtain ⟨hp, hs⟩ := Prod.mk.inj h'
    refine ⟨by rw [← hp], ?_⟩
    rw [← hs]
    exact dictGet_dictSet_self _ _ _

theorem resolve_other_step (st : ResolverState) (tok : String) (sep : Char) (t : String)
    (pair : String × String) (st1 : ResolverState)
    (ha : anonTok sep t tok = false)
    (hok : resolve_designator st tok sep = .ok (pair, st1)) :
    dictGet st1.autogenerated_designators t = dictGet st.autogenerated_designators t := by
  unfold anonTok at ha
  rw [decide_eq_false_iff_not] at ha
  unfold resolve_designator at hok
  by_cases hgt : sepCount tok sep > 0
  · rw [if_pos hgt] at hok
    by_cases hngt : sepCount tok sep > 1
    · rw [if_pos hngt] at hok
      exact Except.noConfusion hok
    · rw [if_neg hngt] at hok
      have h1 : sepCount tok sep = 1 := by omega
      by_cases h3 : (splitOnce tok sep).2 = ""
      · -- anonymous form: the template must differ from t
        have h2 : (splitOnce tok sep).1 ≠ t := by
          intro h2
          exact ha ⟨h1, h2, h3⟩
        simp only [h3, eq_self_iff_true, if_true] at hok
        split at hok
        · split at hok
          · exact Except.noConfusion hok
          · injection hok with h'
            obtain ⟨_, hs⟩ := Prod.mk.inj h'
            rw [← hs]
            exact dictGet_dictSet_ne _ _ _ _ h2
        · injection hok with h'
          obtain ⟨_, hs⟩ := Prod.mk.inj h'
          rw [← hs]
          exact dictGet_dictSet_ne _ _ _ _ h2
      · -- explicitly named instance: counters untouched
        simp only [if_neg h3] at hok
        split at hok
        · split at hok
          · exact Except.noConfusion hok
          · injection hok with h'
            obtain ⟨_, hs⟩ := Prod.mk.inj h'
            rw [← hs]
        · injection hok with h'
          obtain ⟨_, hs⟩ := Prod.mk.inj h'
          rw [← hs]
  · rw [if_neg hgt] at hok
    split at hok
    · injection hok with h'
      obtain ⟨_, hs⟩ := Prod.mk.inj h'
      rw [← hs]
    · injection hok with h'
      obtain ⟨_, hs⟩ := Prod.mk.inj h'
      rw [← hs]

theorem countAnon_nil (sep : Char) (t : String) : countAnon sep t [] = 0 := rfl

theorem countAnon_cons (sep : Char) (t tok : String) (toks : List String) :
    countAnon sep t (tok :: toks) =
      (if anonTok sep t tok then 1 else 0) + countAnon sep t toks := by
  unfold countAnon
  by_cases h : anonTok sep t tok
  · rw [List.filter_cons_of_pos h, if_pos h]
    simp [Nat.add_comm]
  · rw [List.filter_cons_of_neg h, if_neg h]
    simp

theorem selectAnon_cons (sep : Char) (t tok d : String) (toks ds : List String) :
    selectAnon sep t (tok :: toks) (d :: ds) =
      (if anonTok sep t tok then [d] else []) ++ selectAnon sep t toks ds := by
  unfold selectAnon
  by_cases h : anonTok sep t tok <;> simp [h]

/-- The run-level behaviour of auto-generated designators: over any
successful resolution of a token list, the designators generated for the
anonymous tokens of template `t` are `autoName t (c0+1), …, autoName t
(c0+k)` in order (`c0` the incoming counter value, `k` the number of such
tokens), and the counter ends at `c0 + k`. -/
theorem resolveItems_autogen (sep : Char) (t : String) :
    ∀ (tokens : List String) (st0 : ResolverState) (ds : List String) (st1 : ResolverState),
    resolveItems sep st0 tokens = .ok (ds, st1) →
    selectAnon sep t tokens ds =
      (List.range (countAnon sep t tokens)).map
        (fun j => autoName t ((dictGet st0.autogenerated_designators t).getD 0 + j + 1)) ∧
    dictGet st1.autogenerated_designators t =
      (if countAnon sep t tokens = 0 then dictGet st0.autogenerated_designators t
       else some ((dictGet st0.autogenerated_designators t).getD 0 +
         countAnon sep t tokens)) := by
  intro tokens
  induction tokens with
  | nil =>
    intro st0 ds st1 hok
    unfold resolveItems at hok
    injection hok with h'
    obtain ⟨hd, hs⟩ := Prod.mk.inj h'
    constructor
    · rw [← hd]
      rfl
    · rw [← hs]
      simp [countAnon_nil]
  | cons tok toks ih =>
    intro st0 ds st1 hok
    unfold resolveItems at hok
    cases hr : resolve_designator st0 tok sep with
    | error e =>
      rw [hr, except_bind_error] at hok
      exact Except.noConfusion hok
    | ok pst =>
      obtain ⟨pair, sta⟩ := pst
      simp only [hr, except_bind_ok] at hok
      cases hri : resolveItems sep sta toks with
      | error e =>
        rw [hri, except_bind_error] at hok
        exact Except.noConfusion hok
      | ok yst =>
        obtain ⟨ys, stb⟩ := yst
        simp only [hri, except_bind_ok] at hok
        injection hok with h'
        obtain ⟨hd, hs⟩ := Prod.mk.inj h'
        obtain ⟨ih1, ih2⟩ := ih sta ys stb hri
        by_cases hanon : anonTok sep t tok
        · obtain ⟨hp2, hcnt⟩ := resolve_anon_step st0 tok sep t pair sta hanon hr
          have hgetd : (dictGet sta.autogenerated_designators t).getD 0 =
              (dictGet st0.autogenerated_designators t).getD 0 + 1 := by
            rw [hcnt]
            rfl
          constructor
          · rw [← hd, selectAnon_cons, if_pos hanon, countAnon_cons, if_pos hanon, hp2,
              List.singleton_append, Nat.add_comm 1 (countAnon sep t toks),
              List.range_succ_eq_map, List.map_cons, List.map_map]
            congr 1
            rw [ih1, hgetd]
            apply List.map_congr_left
            intro j _
            simp only [Function.comp]
            congr 1
            omega
          · rw [← hs, countAnon_cons, if_pos hanon]
            rw [ih2]
            by_cases hk : countAnon sep t toks = 0
            · rw [if_pos hk, hk, hcnt]
              simp
            · have h10 : ¬ (1 + countAnon sep t toks = 0) := by omega
              rw [if_neg hk, if_neg h10, hgetd]
              congr 1
              omega
        · have hanonf : anonTok sep t tok = false := by simpa using hanon
          have hcnt := resolve_other_step st0 tok sep t pair sta hanonf hr
          constructor
          · rw [← hd, selectAnon_cons, if_neg hanon, countAnon_cons, if_neg hanon]
            rw [ih1, hcnt]
            simp
          · rw [← hs, countAnon_cons, if_neg hanon]
            rw [ih2, hcnt]
            simp

/-- C7: an anonymous-instance token `TEMPLATE<sep>` gets the designator
`__<template>_<n>` where `n` is a per-template counter that starts at 1
(absent counters read 0 and are incremented to 1), advances by exactly 1 on
each anonymous instance of the template regardless of interleaving, and over
a successful run produces the designators numbered `c0+1, …, c0+k` in order
— hence pairwise distinct. -/
theorem claim_C7_autogenerated_designators (sep : Char) (t : String) (tokens : List String)
    (st0 : ResolverState) (ds : List String) (st1 : ResolverState)
    (hok : resolveItems sep st0 tokens = .ok (ds, st1)) :
    (∀ (tok : String) (st : ResolverState) (pair : String × String) (st2 : ResolverState),
      anonTok sep t tok = true → resolve_designator st tok sep = .ok (pair, st2) →
      pair.2 = autoName t ((dictGet st.autogenerated_designators t).getD 0 + 1) ∧
      dictGet st2.autogenerated_designators t =
        some ((dictGet st.autogenerated_designators t).getD 0 + 1)) ∧
    selectAnon sep t tokens ds =
      (List.range (countAnon sep t tokens)).map
        (fun j => autoName t ((dictGet st0.autogenerated_designators t).getD 0 + j + 1)) ∧
    dictGet st1.autogenerated_designators t =
      (if countAnon sep t tokens = 0 then dictGet st0.autogenerated_designators t
       else some ((dictGet st0.autogenerated_designators t).getD 0 +
         countAnon sep t tokens)) ∧
    (selectAnon sep t tokens ds).Nodup := by
  obtain ⟨h2, h3⟩ := resolveItems_autogen sep t tokens st0 ds st1 hok
  refine ⟨fun tok st pair st2 ha hr => resolve_anon_step st tok sep t pair st2 ha hr,
    h2, h3, ?_⟩
  rw [h2]
  have hinj : Function.Injective
      (fun j => autoName t ((dictGet st0.autogenerated_designators t).getD 0 + j + 1)) := by
    intro a b hab
    have := autoName_injective t hab
    omega
  exact (List.nodup_range _).map hinj

/-- Witness for C7: five interleaved tokens from the empty state; the three
anonymous `A:` tokens get `__A_1`, `__A_2`, `__A_3`, which are distinct. -/
theorem claim_C7_autogenerated_designators_witness :
    resolveItems ':' ResolverState.empty ["A:", "B:x", "A:", "A", "A:"] =
      .ok (["__A_1", "x", "__A_2", "A", "__A_3"],
        ⟨[("__A_1", "A"), ("x", "B"), ("__A_2", "A"), ("A", "A"), ("__A_3", "A")],
          [("A", 3)]⟩) ∧
    (selectAnon ':' "A" ["A:", "B:x", "A:", "A", "A:"]
      ["__A_1", "x", "__A_2", "A", "__A_3"]).Nodup := by
  constructor
  · decide
  · exact (claim_C7_autogenerated_designators ':' "A" ["A:", "B:x", "A:", "A", "A:"]
      ResolverState.empty ["__A_1", "x", "__A_2", "A", "__A_3"]
      ⟨[("__A_1", "A"), ("x", "B"), ("__A_2", "A"), ("A", "A"), ("__A_3", "A")],
        [("A", 3)]⟩ (by decide)).2.2.2

/-! ## Transposition and the recorded connections (claim C1) -/

theorem list_head?_eq_getElem? {α : Type} (l : List α) : l.head? = l[0]? := by
  cases l <;> simp

/-- The Connection the claim predicts at position `i` of one transposed
parallel connection: one Connection per cable position, `from` the previous
position (or absent at the first position, where the walk carries `prev`),
`to` the next position (or absent at the last). -/
def strandConnAt (cables : List String) (prev : Option (String × Pin))
    (e : List (String × Pin)) (i : Nat) : Option Connection :=
  match e[i]? with
  | none => none
  | some item =>
    if cables.contains item.1 then
      let left := if i = 0 then prev else e[i - 1]?
      let right := e[i + 1]?
      some { from_name := left.map Prod.fst, from_pin := left.map Prod.snd,
             via_name := item.1, via_pin := item.2,
             to_name := right.map Prod.fst, to_pin := right.map Prod.snd }
    else none

/-- All Connections the claim predicts for one parallel connection, in
left-to-right position order. -/
def strandConns (cables : List String) (prev : Option (String × Pin))
    (e : List (String × Pin)) : List Connection :=
  (List.range e.length).filterMap (strandConnAt cables prev e)

theorem strandConnAt_cons (cables : List String) (prev : Option (String × Pin))
    (item : String × Pin) (rest : List (String × Pin)) (i : Nat) :
    strandConnAt cables prev (item :: rest) (i + 1) =
      strandConnAt cables (some item) rest i := by
  cases i with
  | zero =>
    unfold strandConnAt
    cases h0 : rest[0]? with
    | none => simp [h0]
    | some it => simp [h0]
  | succ j =>
    unfold strandConnAt
    cases hj : rest[j + 1]? with
    | none => simp [hj]
    | some it => simp [hj]

theorem strandConns_cons (cables : List String) (prev : Option (String × Pin))
    (item : String × Pin) (rest : List (String × Pin)) :
    strandConns cables prev (item :: rest) =
      (strandConnAt cables prev (item :: rest) 0).toList ++
        strandConns cables (some item) rest := by
  unfold strandConns
  rw [List.length_cons, List.range_succ_eq_map, List.filterMap_cons, List.filterMap_map]
  have htail : List.filterMap (strandConnAt cables prev (item :: rest) ∘ Nat.succ)
      (List.range rest.length) =
      List.filterMap (strandConnAt cables (some item) rest) (List.range rest.length) :=
    List.filterMap_congr (fun i _ => strandConnAt_cons cables prev item rest i)
  cases h0 : strandConnAt cables prev (item :: rest) 0 with
  | none => simp [htail]
  | some c => simp [htail]

theorem connectItem_conns (cables : List String) (index_entry : Nat)
    (prev : Option (String × Pin)) (item : String × Pin) (rest : List (String × Pin))
    (cs0 : List Connection) (ms0 : List Mate)
    (hok : connectItem cables index_entry prev item rest.head? = .ok (cs0, ms0)) :
    cs0 = (strandConnAt cables prev (item :: rest) 0).toList := by
  unfold connectItem at hok
  unfold strandConnAt
  simp only [List.getElem?_cons_zero, List.getElem?_cons_succ, eq_self_iff_true, if_true]
  rw [← list_head?_eq_getElem? rest]
  by_cases hc : cables.contains item.1
  · rw [if_pos hc] at hok
    rw [if_pos hc]
    injection hok with h'
    obtain ⟨h1, _⟩ := Prod.mk.inj h'
    rw [← h1]
    rfl
  · rw [if_neg hc] at hok
    rw [if_neg hc]
    by_cases ha : is_arrow item.1
    · rw [if_pos ha] at hok
      split at hok
      · exact Except.noConfusion hok
      · split at hok
        · exact Except.noConfusion hok
        · split at hok
          · injection hok with h'
            obtain ⟨h1, _⟩ := Prod.mk.inj h'
            rw [← h1]
            rfl
          · split at hok
            · injection hok with h'
              obtain ⟨h1, _⟩ := Prod.mk.inj h'
              rw [← h1]
              rfl
            · injection hok with h'
              obtain ⟨h1, _⟩ := Prod.mk.inj h'
              rw [← h1]
              rfl
    · rw [if_neg ha] at hok
      injection hok with h'
      obtain ⟨h1, _⟩ := Prod.mk.inj h'
      rw [← h1]
      rfl

theorem connectEntry_conns (cables : List String) (index_entry : Nat) :
    ∀ (e : List (String × Pin)) (prev : Option (String × Pin))
      (cs : List Connection) (ms : List Mate),
    connectEntry cables index_entry prev e = .ok (cs, ms) →
    cs = strandConns cables prev e := by
  intro e
  induction e with
  | nil =>
    intro prev cs ms hok
    unfold connectEntry at hok
    injection hok with h'
    obtain ⟨h1, _⟩ := Prod.mk.inj h'
    rw [← h1]
    rfl
  | cons item rest ih =>
    intro prev cs ms hok
    unfold connectEntry at hok
    cases hi : connectItem cables index_entry prev item rest.head? with
    | error err =>
      rw [hi, except_bind_error] at hok
      exact Except.noConfusion hok
    | ok here =>
      obtain ⟨cs0, ms0⟩ := here
      simp only [hi, except_bind_ok] at hok
      cases hr : connectEntry cables index_entry (some item) rest with
      | error err =>
        rw [hr, except_bind_error] at hok
        exact Except.noConfusion hok
      | ok later =>
        obtain ⟨cs1, ms1⟩ := later
        simp only [hr, except_bind_ok] at hok
        injection hok with h'
        obtain ⟨h1, _⟩ := Prod.mk.inj h'
        rw [← h1, strandConns_cons,
          connectItem_conns cables index_entry prev item rest cs0 ms0 hi,
          ih (some item) cs1 ms1 hr]

theorem connectSetGo_conns (cables : List String) :
    ∀ (tr : List (List (String × Pin))) (index_entry : Nat)
      (cs : List Connection) (ms : List Mate),
    connectSetGo cables index_entry tr = .ok (cs, ms) →
    cs = tr.flatMap (fun e => strandConns cables none e) := by
  intro tr
  induction tr with
  | nil =>
    intro index_entry cs ms hok
    unfold connectSetGo at hok
    injection hok with h'
    obtain ⟨h1, _⟩ := Prod.mk.inj h'
    rw [← h1]
    rfl
  | cons entry rest ih =>
    intro index_entry cs ms hok
    unfold connectSetGo at hok
    cases he : connectEntry cables index_entry none entry with
    | error err =>
      rw [he, except_bind_error] at hok
      exact Except.noConfusion hok
    | ok here =>
      obtain ⟨cs0, ms0⟩ := here
      simp only [he, except_bind_ok] at hok
      cases hr : connectSetGo cables (index_entry + 1) rest with
      | error err =>
        rw [hr, except_bind_error] at hok
        exact Except.noConfusion hok
      | ok later =>
        obtain ⟨cs1, ms1⟩ := later
        simp only [hr, except_bind_ok] at hok
        injection hok with h'
        obtain ⟨h1, _⟩ := Prod.mk.inj h'
        rw [← h1, List.flatMap_cons,
          connectEntry_conns cables index_entry entry none cs0 ms0 he,
          ih (index_entry + 1) cs1 ms1 hr]

theorem foldl_min_const (n : Nat) :
    ∀ (l : List Nat), (∀ m ∈ l, m = n) → ∀ a, a = n → l.foldl Nat.min a = n := by
  intro l
  induction l with
  | nil =>
    intro _ a ha
    exact ha
  | cons m ms ih =>
    intro h a ha
    rw [List.foldl_cons]
    refine ih (fun x hx => h x (List.mem_cons_of_mem m hx)) (Nat.min a m) ?_
    rw [ha, h m (List.mem_cons_self m ms)]
    exact Nat.min_self n

theorem minLen_rect {α : Type} (xss : List (List α)) (n : Nat) (hne : xss ≠ [])
    (h : ∀ e ∈ xss, e.length = n) : minLen xss = n := by
  cases xss with
  | nil => exact absurd rfl hne
  | cons x xs =>
    unfold minLen
    refine foldl_min_const n (xs.map List.length) ?_ x.length
      (h x (List.mem_cons_self x xs))
    intro m hm
    obtain ⟨e, he, rfl⟩ := List.mem_map.mp hm
    exact h e (List.mem_cons_of_mem x he)

theorem transposeZip_length {α : Type} [Inhabited α] (xss : List (List α)) :
    (transposeZip xss).length = minLen xss := by
  simp [transposeZip]

theorem transposeZip_get {α : Type} [Inhabited α] (xss : List (List α)) (k : Nat)
    (hk : k < minLen xss) :
    (transposeZip xss)[k]? = some (xss.map (fun xs => xs.getD k default)) := by
  unfold transposeZip
  rw [List.getElem?_map, List.getElem?_range hk]
  rfl

/-- C1: the builder transposes the normalized row — the k-th parallel
connection is the list of the k-th sub-items of every element in written
order — and on success the recorded Connections are exactly one per cable
position of each parallel connection: via that cable's designator and pin,
`from` the previous position's designator/pin (absent at the first
position), `to` the next position's (absent at the last), listed in
parallel-connection order and, within one parallel connection, in
left-to-right position order. -/
theorem claim_C1_transpose_and_connect (strands : List (List (String × Pin)))
    (n : Nat) (cables : List String) (cs : List Connection) (ms : List Mate)
    (hne : strands ≠ []) (hrect : ∀ e ∈ strands, e.length = n) :
    (transposeZip strands).length = n ∧
    (∀ k, k < n → (transposeZip strands)[k]? =
      some (strands.map (fun e => e.getD k default))) ∧
    (connectSetGo cables 0 (transposeZip strands) = .ok (cs, ms) →
      cs = (transposeZip strands).flatMap (fun e => strandConns cables none e)) := by
  have hmin : minLen strands = n := minLen_rect strands n hne hrect
  refine ⟨by rw [transposeZip_length, hmin], ?_, ?_⟩
  · intro k hk
    exact transposeZip_get strands k (by rw [hmin]; exact hk)
  · intro hok
    exact connectSetGo_conns cables (transposeZip strands) 0 cs ms hok

/-- Witness for C1: a three-element row (`X1`, cable `W1`, `X2`) with two
parallel connections transposes to two strands of three positions and yields
exactly the two predicted Connections. -/
theorem claim_C1_transpose_and_connect_witness :
    (transposeZip [[("X1", Pin.num 1), ("X1", Pin.num 2)],
      [("W1", Pin.num 1), ("W1", Pin.num 2)],
      [("X2", Pin.num 1), ("X2", Pin.num 2)]]).length = 2 ∧
    ([{ from_name := some "X1", from_pin := some (Pin.num 1), via_name := "W1",
        via_pin := Pin.num 1, to_name := some "X2", to_pin := some (Pin.num 1) },
      { from_name := some "X1", from_pin := some (Pin.num 2), via_name := "W1",
        via_pin := Pin.num 2, to_name := some "X2", to_pin := some (Pin.num 2) }] :
      List Connection) =
      (transposeZip [[("X1", Pin.num 1), ("X1", Pin.num 2)],
        [("W1", Pin.num 1), ("W1", Pin.num 2)],
        [("X2", Pin.num 1), ("X2", Pin.num 2)]]).flatMap
        (fun e => strandConns ["W1"] none e) := by
  have h := claim_C1_transpose_and_connect
    [[("X1", Pin.num 1), ("X1", Pin.num 2)],
      [("W1", Pin.num 1), ("W1", Pin.num 2)],
      [("X2", Pin.num 1), ("X2", Pin.num 2)]] 2 ["W1"]
    [{ from_name := some "X1", from_pin := some (Pin.num 1), via_name := "W1",
        via_pin := Pin.num 1, to_name := some "X2", to_pin := some (Pin.num 1) },
      { from_name := some "X1", from_pin := some (Pin.num 2), via_name := "W1",
        via_pin := Pin.num 2, to_name := some "X2", to_pin := some (Pin.num 2) }] []
    (by decide) (by decide)
  exact ⟨h.1, h.2.2 (by decide)⟩

/-! ## Arrow positions (claim C2) -/

theorem connectEntry_cons_eq (cables : List String) (ie : Nat)
    (prev : Option (String × Pin)) (item : String × Pin) (rest : List (String × Pin)) :
    connectEntry cables ie prev (item :: rest) =
      (connectItem cables ie prev item rest.head?) >>= fun here =>
        (connectEntry cables ie (some item) rest) >>= fun later =>
          .ok (here.1 ++ later.1, here.2 ++ later.2) := rfl

/-- C2: in a transposed parallel connection, an arrow at the first position
fails with the boundary error for the start, an arrow at the last position
with the one for the end; a middle arrow containing `-` records one
pin-level Mate between its neighbours' designator/pin in every parallel
connection (any `index_entry`), and a middle arrow containing `=` (and no
`-`) records one component-level Mate between its neighbours' designators
exactly when the parallel-connection index is 0 — for indices greater than
0 it records nothing. -/
theorem claim_C2_arrow_mates (cables : List String) (ie : Nat) (d : String) (p : Pin)
    (rest : List (String × Pin)) (q : String × Pin) (fn tn : String) (fp tp : Pin)
    (ha : is_arrow d = true) (hc : cables.contains d = false) :
    (connectEntry cables ie none ((d, p) :: rest) = .error .arrowAtStart) ∧
    (connectEntry cables ie (some q) [(d, p)] = .error .arrowAtEnd) ∧
    (charIn '-' d = true →
      connectEntry cables ie (some (fn, fp)) ((d, p) :: (tn, tp) :: rest) =
        (connectEntry cables ie (some (d, p)) ((tn, tp) :: rest)).map
          (fun r => (r.1, .pin fn fp tn tp d :: r.2))) ∧
    (charIn '-' d = false → charIn '=' d = true →
      connectEntry cables 0 (some (fn, fp)) ((d, p) :: (tn, tp) :: rest) =
        (connectEntry cables 0 (some (d, p)) ((tn, tp) :: rest)).map
          (fun r => (r.1, .component fn tn d :: r.2))) ∧
    (charIn '-' d = false → ie ≠ 0 →
      connectEntry cables ie (some (fn, fp)) ((d, p) :: (tn, tp) :: rest) =
        connectEntry cables ie (some (d, p)) ((tn, tp) :: rest)) := by
  have hc' : d ∉ cables := by simpa using hc
  refine ⟨?_, ?_, ?_, ?_, ?_⟩
  · have hi : connectItem cables ie none (d, p) rest.head? = .error .arrowAtStart := by
      simp [connectItem, hc', ha]
    rw [connectEntry_cons_eq, hi, except_bind_error]
  · have hi : connectItem cables ie (some q) (d, p) ([] : List (String × Pin)).head? =
        .error .arrowAtEnd := by
      obtain ⟨qn, qp⟩ := q
      simp [connectItem, hc', ha]
    rw [connectEntry_cons_eq, hi, except_bind_error]
  · intro hdash
    have hi : connectItem cables ie (some (fn, fp)) (d, p) ((tn, tp) :: rest).head? =
        .ok ([], [.pin fn fp tn tp d]) := by
      simp [connectItem, hc', ha, hdash]
    rw [connectEntry_cons_eq, hi, except_bind_ok]
    cases hr : connectEntry cables ie (some (d, p)) ((tn, tp) :: rest) with
    | error e => rw [except_bind_error]; rfl
    | ok later => rw [except_bind_ok]; rfl
  · intro hdash heq
    have hi : connectItem cables 0 (some (fn, fp)) (d, p) ((tn, tp) :: rest).head? =
        .ok ([], [.component fn tn d]) := by
      simp [connectItem, hc', ha, hdash, heq]
    rw [connectEntry_cons_eq, hi, except_bind_ok]
    cases hr : connectEntry cables 0 (some (d, p)) ((tn, tp) :: rest) with
    | error e => rw [except_bind_error]; rfl
    | ok later => rw [except_bind_ok]; rfl
  · intro hdash hie
    have hi : connectItem cables ie (some (fn, fp)) (d, p) ((tn, tp) :: rest).head? =
        .ok ([], []) := by
      simp [connectItem, hc', ha, hdash, hie]
    rw [connectEntry_cons_eq, hi, except_bind_ok]
    cases hr : connectEntry cables ie (some (d, p)) ((tn, tp) :: rest) with
    | error e => rw [except_bind_error]
    | ok later => rw [except_bind_ok]; simp

/-- Witness for C2: the pin-level arrow `<->` between `A/1` and `B/1`
records one pin-level Mate and no Connection; the same arrow at position 0
fails with the start-boundary error. -/
theorem claim_C2_arrow_mates_witness :
    connectEntry [] 0 (some ("A", Pin.num 1)) [("<->", Pin.num 1), ("B", Pin.num 1)] =
      .ok ([], [.pin "A" (Pin.num 1) "B" (Pin.num 1) "<->"]) ∧
    connectEntry [] 0 none [("<->", Pin.num 1), ("B", Pin.num 1)] =
      .error .arrowAtStart := by
  constructor
  · rw [(claim_C2_arrow_mates [] 0 "<->" (Pin.num 1) [] ("A", Pin.num 1) "A" "B"
      (Pin.num 1) (Pin.num 1) (by decide) (by decide)).2.2.1 (by decide)]
    decide
  · exact (claim_C2_arrow_mates [] 0 "<->" (Pin.num 1) [("B", Pin.num 1)]
      ("A", Pin.num 1) "A" "B" (Pin.num 1) (Pin.num 1) (by decide) (by decide)).1

/-! ## What the build pass mutates (claim C8) -/

theorem processConnections_length {T : Type} (tconn tcab : List (String × T)) (sep : Char) :
    ∀ (rows : List (List Entry)) (st : ResolverState × Harness T)
      (st1 : ResolverState × Harness T) (rows1 : List (List Entry)),
    processConnections tconn tcab sep st rows = .ok (st1, rows1) →
    rows1.length = rows.length := by
  intro rows
  induction rows with
  | nil =>
    intro st st1 rows1 hok
    unfold processConnections at hok
    injection hok with h'
    obtain ⟨_, h2⟩ := Prod.mk.inj h'
    rw [← h2]
  | cons row rest ih =>
    intro st st1 rows1 hok
    unfold processConnections at hok
    cases hr : processConnectionSet tconn tcab sep st row with
    | error e =>
      rw [hr, except_bind_error] at hok
      exact Except.noConfusion hok
    | ok pr =>
      obtain ⟨sta, rowa⟩ := pr
      simp only [hr, except_bind_ok] at hok
      cases hrs : processConnections tconn tcab sep sta rest with
      | error e =>
        rw [hrs, except_bind_error] at hok
        exact Except.noConfusion hok
      | ok prs =>
        obtain ⟨stb, rowsb⟩ := prs
        simp only [hrs, except_bind_ok] at hok
        injection hok with h'
        obtain ⟨_, h2⟩ := Prod.mk.inj h'
        rw [← h2, List.length_cons, List.length_cons, ih sta stb rowsb hrs]

/-- Counterexample to C8 as stated: the source rewrites
`connection_set[index]` in place (lines 237–264), so the document dict
passed to `parse` is not left unchanged — after one successful build, its
connection rows hold the normalized `{designator: pin}` lists instead of
the original scalar tokens. -/
theorem claim_C8_counterexample :
    parseCore ':' (⟨[("X1", ()), ("X2", ())], [("W1", ())],
        [[Entry.str "X1", Entry.str "W1", Entry.str "X2"]]⟩ : Document Unit) =
      .ok (⟨[("X1", ()), ("X2", ())], [("W1", ())],
        [[Entry.dicts [("X1", Pin.num 1)], Entry.dicts [("W1", Pin.num 1)],
          Entry.dicts [("X2", Pin.num 1)]]]⟩,
        ⟨[("X1", ()), ("X2", ())], [("W1", ())],
          [{ from_name := some "X1", from_pin := some (Pin.num 1), via_name := "W1",
             via_pin := Pin.num 1, to_name := some "X2", to_pin := some (Pin.num 1) }],
          []⟩,
        ⟨[("X1", "X1"), ("W1", "W1"), ("X2", "X2")], []⟩) ∧
    (⟨[("X1", ()), ("X2", ())], [("W1", ())],
        [[Entry.dicts [("X1", Pin.num 1)], Entry.dicts [("W1", Pin.num 1)],
          Entry.dicts [("X2", Pin.num 1)]]]⟩ : Document Unit) ≠
      ⟨[("X1", ()), ("X2", ())], [("W1", ())],
        [[Entry.str "X1", Entry.str "W1", Entry.str "X2"]]⟩ :=
  ⟨by decide, by decide⟩

/-- C8 amended: the core build is a deterministic transform of explicit
inputs whose only effects are the resolver state, the harness, and the
in-place normalization of the document's connection rows: the template
sections come through unchanged and the rows are replaced one for one —
but the document tree itself is not left unchanged. -/
theorem claim_C8_mutation_frame {T : Type} (sep : Char) (doc doc' : Document T)
    (h : Harness T) (rst : ResolverState)
    (hok : parseCore sep doc = .ok (doc', h, rst)) :
    doc'.connectors = doc.connectors ∧ doc'.cables = doc.cables ∧
    doc'.connections.length = doc.connections.length := by
  unfold parseCore at hok
  cases hp : processConnections doc.connectors doc.cables sep
      (ResolverState.empty, Harness.empty T) doc.connections with
  | error e =>
    rw [hp, except_bind_error] at hok
    exact Except.noConfusion hok
  | ok pr =>
    obtain ⟨st, rows⟩ := pr
    simp only [hp, except_bind_ok] at hok
    injection hok with h'
    obtain ⟨h1, _⟩ := Prod.mk.inj h'
    rw [← h1]
    exact ⟨rfl, rfl,
      processConnections_length doc.connectors doc.cables sep doc.connections
        (ResolverState.empty, Harness.empty T) st rows hp⟩

/-- Witness for C8 (amended): the concrete build of the counterexample
document leaves the template sections unchanged and keeps one row. -/
theorem claim_C8_mutation_frame_witness :
    (⟨[("X1", ()), ("X2", ())], [("W1", ())],
        [[Entry.dicts [("X1", Pin.num 1)], Entry.dicts [("W1", Pin.num 1)],
          Entry.dicts [("X2", Pin.num 1)]]]⟩ : Document Unit).connectors =
      (⟨[("X1", ()), ("X2", ())], [("W1", ())],
        [[Entry.str "X1", Entry.str "W1", Entry.str "X2"]]⟩ : Document Unit).connectors ∧
    (⟨[("X1", ()), ("X2", ())], [("W1", ())],
        [[Entry.dicts [("X1", Pin.num 1)], Entry.dicts [("W1", Pin.num 1)],
          Entry.dicts [("X2", Pin.num 1)]]]⟩ : Document Unit).cables =
      (⟨[("X1", ()), ("X2", ())], [("W1", ())],
        [[Entry.str "X1", Entry.str "W1", Entry.str "X2"]]⟩ : Document Unit).cables ∧
    (⟨[("X1", ()), ("X2", ())], [("W1", ())],
        [[Entry.dicts [("X1", Pin.num 1)], Entry.dicts [("W1", Pin.num 1)],
          Entry.dicts [("X2", Pin.num 1)]]]⟩ : Document Unit).connections.length =
      (⟨[("X1", ()), ("X2", ())], [("W1", ())],
        [[Entry.str "X1", Entry.str "W1", Entry.str "X2"]]⟩ :
        Document Unit).connections.length :=
  claim_C8_mutation_frame ':'
    ⟨[("X1", ()), ("X2", ())], [("W1", ())],
      [[Entry.str "X1", Entry.str "W1", Entry.str "X2"]]⟩
    ⟨[("X1", ()), ("X2", ())], [("W1", ())],
      [[Entry.dicts [("X1", Pin.num 1)], Entry.dicts [("W1", Pin.num 1)],
        Entry.dicts [("X2", Pin.num 1)]]]⟩
    ⟨[("X1", ()), ("X2", ())], [("W1", ())],
      [{ from_name := some "X1", from_pin := some (Pin.num 1), via_name := "W1",
         via_pin := Pin.num 1, to_name := some "X2", to_pin := some (Pin.num 1) }],
      []⟩
    ⟨[("X1", "X1"), ("W1", "W1"), ("X2", "X2")], []⟩ (by decide)

end WireViz
